import Mathlib

/-!
Verification development for the purchase-arbitration core of the pet-order
service and its inventory-client / inventory-service collaborators.

The embedding is shallow:

* Pure Python functions become Lean functions.
* Remote HTTP calls made by `purchase_service.py` are represented by a
  `ClientOracle` record holding, for each client operation, the value that
  the operation returns during the execution under consideration (the
  client functions themselves are embedded separately, over explicit HTTP
  responses, in the `PetStoreClient` namespace).
* Side effects are made explicit: every handler returns, besides its HTTP
  result, the new ledger state and a trace of the external calls it made
  (inventory calls and ledger accesses), so that "no inventory call
  happened" / "the ledger was untouched" are provable statements.
* MongoDB `ObjectId`s are modelled as natural numbers: `insert_one`
  assigns the next fresh id, `str(object_id)` is `toString`, and
  `ObjectId(string)` is a parse function that fails exactly on strings
  that do not denote an id.
* Python truthiness of `Optional[str]` / `Optional[int]` values (`if x:`)
  is modelled by explicit helpers, and Python's ASCII `str.lower()` (and
  `re.IGNORECASE` matching, which agrees with it on ASCII) by an explicit
  character-level lowering function.
-/

namespace PetOrder

/-- Python truthiness of an `Optional[str]`: `None` and `""` are falsy. -/
def optStrTruthy : Option String → Bool
  | none => false
  | some s => !s.isEmpty

/-- Python truthiness of an `Optional[int]`: `None` and `0` are falsy. -/
def optIntTruthy : Option Int → Bool
  | none => false
  | some i => i != 0

/-- Python ASCII lowering of one character, as done by `str.lower()` on
ASCII input (the repository's names are ASCII). -/
def lowerChar (c : Char) : Char :=
  if 65 ≤ c.toNat ∧ c.toNat ≤ 90 then Char.ofNat (c.toNat + 32) else c

/-- Python `s.lower()` restricted to ASCII strings. -/
def lowerStr (s : String) : String := ⟨s.data.map lowerChar⟩

/-- Is `pat` a (character-list) prefix of `s`? -/
def prefixOfCharList : List Char → List Char → Bool
  | [], _ => true
  | _ :: _, [] => false
  | a :: as, b :: bs => a == b && prefixOfCharList as bs

/-- Does `pat` occur as a contiguous sublist of `s`? -/
def sublistSearch (pat : List Char) : List Char → Bool
  | [] => prefixOfCharList pat []
  | c :: rest => prefixOfCharList pat (c :: rest) || sublistSearch pat rest

/-- Python's `pat in s` substring test. -/
def pyInStr (pat s : String) : Bool := sublistSearch pat.data s.data

/-- Model of `app/models/purchase.py` — `PurchaseRequest`: body of `POST /purchases`. -/
structure PurchaseRequest where
  purchaser : String
  pet_type : String
  store : Option Int := none
  pet_name : Option String := none
deriving Repr, DecidableEq

/-- Model of `app/models/purchase.py` — the `model_validator` on `PurchaseRequest`:
`pet-name` requires a truthy `store`, and a present `store` must be 1 or 2.
Pydantic runs this at construction, before any handler code. -/
def validate_pet_name_requires_store (r : PurchaseRequest) :
    Except String PurchaseRequest :=
  if optStrTruthy r.pet_name && !optIntTruthy r.store then
    .error "pet-name can only be provided if store is provided"
  else if r.store.isSome && !(r.store == some 1 || r.store == some 2) then
    .error "store must be 1 or 2"
  else
    .ok r

/-- Model of `purchase_service.py` — `FoundPet`. -/
structure FoundPet where
  store : Int
  pet_type_id : String
  pet_type_name : String
  name : String
deriving Repr, DecidableEq

/-- A pet document as returned by the inventory backends; the purchase
workflow reads only its `name` field. -/
structure PetDoc where
  name : String
deriving Repr, DecidableEq

/-- The values returned by the `pet_store_client` calls during one
execution of the purchase workflow: `find_pet_type_id`, `get_pet`,
`get_pets_for_type` and `delete_pet`, each keyed by store and arguments.
This is the environment against which `purchase_service.py` is run. -/
structure ClientOracle where
  find_pet_type_id : Int → String → Option String
  get_pet : Int → String → String → Option PetDoc
  get_pets_for_type : Int → String → List PetDoc
  delete_pet : Int → String → String → Bool

/-- One externally observable call made by the order service. -/
inductive Event where
  | findTypeId (store : Int) (typeName : String)
  | getPet (store : Int) (typeId : String) (name : String)
  | listPets (store : Int) (typeId : String)
  | deletePet (store : Int) (typeId : String) (name : String)
  | ledgerInsert
  | ledgerQuery
deriving Repr, DecidableEq

/-- The store an inventory call is addressed to; ledger events have none. -/
def Event.store? : Event → Option Int
  | .findTypeId s _ => some s
  | .getPet s _ _ => some s
  | .listPets s _ => some s
  | .deletePet s _ _ => some s
  | .ledgerInsert => none
  | .ledgerQuery => none

/-- One iteration of the `for store in stores_to_check` loop of
`find_available_pet` (`purchase_service.py`): resolve the type id
(`if not pet_type_id: continue` — `None` and `""` are both falsy), then
either fetch the exact pet (truthy `pet_name`) or list the pets of the
type and pick one pseudo-randomly (`random.choice`, modelled by the index
`choiceIdx` reduced modulo the list length). Returns the candidate, if
any, together with the inventory calls the iteration made. -/
def probe_store (c : ClientOracle) (choiceIdx : Nat) (req : PurchaseRequest)
    (store : Int) : Option FoundPet × List Event :=
  match c.find_pet_type_id store req.pet_type with
  | none => (none, [.findTypeId store req.pet_type])
  | some tid =>
    if tid = "" then
      (none, [.findTypeId store req.pet_type])
    else if optStrTruthy req.pet_name then
      match c.get_pet store tid (req.pet_name.getD "") with
      | some pet =>
        (some ⟨store, tid, req.pet_type, pet.name⟩,
         [.findTypeId store req.pet_type,
          .getPet store tid (req.pet_name.getD "")])
      | none =>
        (none, [.findTypeId store req.pet_type,
                .getPet store tid (req.pet_name.getD "")])
    else
      if (c.get_pets_for_type store tid).isEmpty then
        (none, [.findTypeId store req.pet_type, .listPets store tid])
      else
        (some ⟨store, tid, req.pet_type,
               ((c.get_pets_for_type store tid).getD
                 (choiceIdx % (c.get_pets_for_type store tid).length)
                 ⟨""⟩).name⟩,
         [.findTypeId store req.pet_type, .listPets store tid])

/-- The loop of `find_available_pet` over the stores to check: returns
at the first iteration that yields a candidate. -/
def find_loop (c : ClientOracle) (choiceIdx : Nat) (req : PurchaseRequest) :
    List Int → Option FoundPet × List Event
  | [] => (none, [])
  | s :: rest =>
    let r := probe_store c choiceIdx req s
    match r.1 with
    | some p => (some p, r.2)
    | none =>
      let r' := find_loop c choiceIdx req rest
      (r'.1, r.2 ++ r'.2)

/-- Model of `purchase_service.py` line 31:
`stores_to_check = [request.store] if request.store else [1, 2]`
(Python truthiness: `None` and `0` both select `[1, 2]`). -/
def storesToCheck (req : PurchaseRequest) : List Int :=
  if optIntTruthy req.store then [req.store.getD 0] else [1, 2]

/-- Model of `purchase_service.py` — `find_available_pet`, with its trace of
inventory calls. -/
def find_available_pet (c : ClientOracle) (choiceIdx : Nat)
    (req : PurchaseRequest) : Option FoundPet × List Event :=
  find_loop c choiceIdx req (storesToCheck req)

/-- The document `process_purchase` inserts into the `transactions`
collection. -/
structure TransactionDoc where
  purchaser : String
  pet_type : String
  store : Int
deriving Repr, DecidableEq

/-- The `transactions` MongoDB collection: stored documents paired with
their ids, plus the next fresh id (`ObjectId`s modelled as naturals). -/
structure Ledger where
  docs : List (Nat × TransactionDoc)
  nextId : Nat
deriving Repr, DecidableEq

/-- Model of `collection.insert_one`: appends the document under a fresh id and
returns the inserted id. -/
def Ledger.insert_one (l : Ledger) (d : TransactionDoc) : Nat × Ledger :=
  (l.nextId, ⟨l.docs ++ [(l.nextId, d)], l.nextId + 1⟩)

/-- Model of `app/models/purchase.py` — `PurchaseResponse` (201 body). -/
structure PurchaseResponse where
  purchaser : String
  pet_type : String
  store : Int
  pet_name : String
  purchase_id : String
deriving Repr, DecidableEq

/-- Outcome of `process_purchase`: a response, or the `NoPetAvailable`
exception. -/
inductive PurchaseOutcome where
  | success (resp : PurchaseResponse)
  | noPetAvailable
deriving Repr, DecidableEq

/-- Model of `purchase_service.py` — `process_purchase`: locate, claim (delete),
record, respond; `purchase_id = str(result.inserted_id)`. Returns the
outcome, the ledger after the call, and the trace of external calls. -/
def process_purchase (c : ClientOracle) (choiceIdx : Nat)
    (req : PurchaseRequest) (ledger : Ledger) :
    PurchaseOutcome × Ledger × List Event :=
  let fr := find_available_pet c choiceIdx req
  match fr.1 with
  | none => (.noPetAvailable, ledger, fr.2)
  | some pet =>
    let ev := Event.deletePet pet.store pet.pet_type_id pet.name
    if c.delete_pet pet.store pet.pet_type_id pet.name then
      let ins := ledger.insert_one ⟨req.purchaser, pet.pet_type_name, pet.store⟩
      (.success ⟨req.purchaser, pet.pet_type_name, pet.store, pet.name,
                 toString ins.1⟩,
       ins.2, fr.2 ++ [ev, .ledgerInsert])
    else
      (.noPetAvailable, ledger, fr.2 ++ [ev])

/-- HTTP result of `POST /purchases` as produced by
`routers/purchases.py` (and, for 422, by pydantic validation). -/
inductive HttpPurchaseResult where
  | created (resp : PurchaseResponse)
  | badRequest (error : String)
  | unsupportedMediaType (error : String)
  | validationError (error : String)
deriving Repr, DecidableEq

/-- Model of `routers/purchases.py` — `create_purchase`: 415 unless the
Content-Type header contains `application/json`; otherwise run
`process_purchase`, mapping `NoPetAvailable` to a 400 with
`"No pet of this type is available"` and success to a 201. -/
def create_purchase (c : ClientOracle) (choiceIdx : Nat)
    (contentType : String) (req : PurchaseRequest) (ledger : Ledger) :
    HttpPurchaseResult × Ledger × List Event :=
  if !(pyInStr "application/json" contentType) then
    (.unsupportedMediaType "Expected application/json media type", ledger, [])
  else
    match process_purchase c choiceIdx req ledger with
    | (.success resp, l, es) => (.created resp, l, es)
    | (.noPetAvailable, l, es) =>
      (.badRequest "No pet of this type is available", l, es)

/-- The full `POST /purchases` pipeline: pydantic builds the
`PurchaseRequest` (running the model validator) before the handler body
runs; a validation failure is a 422 that performs no external call. -/
def post_purchases (c : ClientOracle) (choiceIdx : Nat)
    (contentType : String) (purchaser pet_type : String)
    (store : Option Int) (pet_name : Option String) (ledger : Ledger) :
    HttpPurchaseResult × Ledger × List Event :=
  match validate_pet_name_requires_store ⟨purchaser, pet_type, store, pet_name⟩ with
  | .error msg => (.validationError msg, ledger, [])
  | .ok req => create_purchase c choiceIdx contentType req ledger

/-- Model of `app/models/purchase.py` — `Transaction` (element of the
`GET /transactions` response). -/
structure Transaction where
  purchaser : String
  pet_type : String
  store : Int
  purchase_id : String
deriving Repr, DecidableEq

/-- Model of `ObjectId(s)` for an id modelled as a natural: parses a non-empty
all-digit string, failing (`InvalidId`) on anything else. -/
def parseObjectId (s : String) : Option Nat :=
  if s.data ≠ [] ∧ s.data.all (fun c => 48 ≤ c.toNat ∧ c.toNat ≤ 57) then
    some (s.data.foldl (fun n c => n * 10 + (c.toNat - 48)) 0)
  else none

/-- Does a stored document match the MongoDB query dict built by
`get_transactions` (equality on every supplied field, `_id` included)? -/
def txMatches (store : Option Int) (pet_type purchaser : Option String)
    (oid : Option Nat) (doc : Nat × TransactionDoc) : Bool :=
  (store.all (fun v => v == doc.2.store)) &&
  (pet_type.all (fun v => v == doc.2.pet_type)) &&
  (purchaser.all (fun v => v == doc.2.purchaser)) &&
  (oid.all (fun v => v == doc.1))

/-- Model of `purchase_service.py` — `get_transactions`: builds the query from the
supplied filters; an unparsable `purchase_id` returns `[]` before the
find; otherwise returns the matching documents as `Transaction`s with
`purchase_id = str(_id)`. -/
def get_transactions (store : Option Int)
    (pet_type purchaser purchase_id : Option String) (ledger : Ledger) :
    List Transaction :=
  match purchase_id with
  | some s =>
    match parseObjectId s with
    | none => []
    | some oid =>
      (ledger.docs.filter (txMatches store pet_type purchaser (some oid))).map
        (fun d => ⟨d.2.purchaser, d.2.pet_type, d.2.store, toString d.1⟩)
  | none =>
    (ledger.docs.filter (txMatches store pet_type purchaser none)).map
      (fun d => ⟨d.2.purchaser, d.2.pet_type, d.2.store, toString d.1⟩)

/-- Model of `routers/transactions.py` — the shared secret. -/
def OWNER_PC_SECRET : String := "LovesPetsL2M3n4"

/-- HTTP result of `GET /transactions`. -/
inductive HttpTxResult where
  | ok (txs : List Transaction)
  | unauthorized (error : String)
deriving Repr, DecidableEq

/-- Model of `routers/transactions.py` — `list_transactions`: 401 when the
`OwnerPC` header is absent or differs from the secret (no ledger access);
otherwise delegate to `get_transactions` (one ledger query). -/
def list_transactions (ownerpc : Option String) (store : Option Int)
    (pet_type purchaser purchase_id : Option String) (ledger : Ledger) :
    HttpTxResult × List Event :=
  if ownerpc != some OWNER_PC_SECRET then
    (.unauthorized "unauthorized", [])
  else
    (.ok (get_transactions store pet_type purchaser purchase_id ledger),
     [.ledgerQuery])

end PetOrder

namespace PetStoreClient

/-- Outcome of one `httpx` call: either a response was obtained, or the
transport raised (connection error, timeout, ...). `pet_store_client.py`
wraps none of its calls in `try`/`except`, so a raised transport error
propagates out of the client function. -/
abbrev TransportResult (α : Type) : Type := Except String α

/-- An HTTP response: status code plus (parsed JSON) body. -/
structure HttpResponse (α : Type) where
  status : Nat
  body : α
deriving Repr, DecidableEq

/-- An element of the `GET /pet-types` listing as consumed by the client
(`{id, type, ...}`; the backend always supplies both fields). -/
structure PetTypeEntry where
  id : String
  type : String
deriving Repr, DecidableEq

/-- Model of `pet_store_client.py` — `get_pet_types`: body on HTTP 200, `[]` on
any other status. -/
def get_pet_types (resp : HttpResponse (List PetTypeEntry)) :
    List PetTypeEntry :=
  if resp.status = 200 then resp.body else []

/-- The `for pt in pet_types` loop of `find_pet_type_id`: first entry
whose `type` equals the target case-insensitively, returning its `id`. -/
def find_type_in_list (target : String) : List PetTypeEntry → Option String
  | [] => none
  | pt :: rest =>
    if PetOrder.lowerStr pt.type == PetOrder.lowerStr target then some pt.id
    else find_type_in_list target rest

/-- Model of `pet_store_client.py` — `find_pet_type_id`: case-insensitive first
match over the listed pet types. -/
def find_pet_type_id (resp : HttpResponse (List PetTypeEntry))
    (pet_type_name : String) : Option String :=
  find_type_in_list pet_type_name (get_pet_types resp)

/-- A pet object as served by `GET /pet-types/{id}/pets/{name}`. -/
structure PetView where
  name : String
  birthdate : String
  picture : String
deriving Repr, DecidableEq

/-- Model of `pet_store_client.py` — `get_pet`: the response body on HTTP 200,
`None` on any other status. The function takes the already-completed
HTTP exchange for `GET /pet-types/{id}/pets/{name}`; a 404 carries no
pet in its body. -/
def get_pet (resp : HttpResponse (Option PetView)) : Option PetView :=
  if resp.status = 200 then resp.body else none

/-- Model of `pet_store_client.py` — `delete_pet`, over the outcome of
`client.delete(url)`: there is no `try`/`except`, so a transport error
raised by `httpx` propagates; a completed response yields
`status_code in [200, 204]`. -/
def delete_pet (resp : TransportResult (HttpResponse Unit)) :
    TransportResult Bool :=
  match resp with
  | .error e => .error e
  | .ok r => .ok (r.status == 200 || r.status == 204)

end PetStoreClient

namespace PetStoreService

/-- A pet document as stored by the inventory service
(`mongo_store.py`: `pets` collection, keyed by `pet_type_id` and
`name`). -/
structure StoredPet where
  pet_type_id : String
  name : String
  birthdate : String
  picture : String
deriving Repr, DecidableEq

/-- The inventory service's persistent state, as far as the pet lookup
is concerned: which pet-type ids exist, and the stored pets in listing
order. -/
structure InventoryDB where
  pet_type_ids : List String
  pets : List StoredPet
deriving Repr, DecidableEq

/-- Model of `mongo_store.py` — `get_pet_case_insensitive`: first stored pet of
the given type whose name matches the requested name under
`re.IGNORECASE` (which agrees with ASCII lowering on the repository's
ASCII names). -/
def get_pet_case_insensitive (db : InventoryDB) (pet_type_id name : String) :
    Option StoredPet :=
  db.pets.find? (fun p =>
    p.pet_type_id == pet_type_id &&
    PetOrder.lowerStr p.name == PetOrder.lowerStr name)

/-- Model of `pet_service.py` — `PetService.get_pet`: `ValueError` when the pet
type does not exist, otherwise the case-insensitive lookup projected to
the response fields. -/
def service_get_pet (db : InventoryDB) (pet_type_id name : String) :
    Except String (Option PetStoreClient.PetView) :=
  if !(db.pet_type_ids.contains pet_type_id) then
    .error "PET_TYPE_NOT_FOUND"
  else
    match get_pet_case_insensitive db pet_type_id name with
    | none => .ok none
    | some p => .ok (some ⟨p.name, p.birthdate, p.picture⟩)

/-- Model of `routers/pets.py` — `GET /pet-types/{id}/pets/{name}`: 200 with the
pet when found, 404 (empty body) when the pet or type is missing. -/
def route_get_pet (db : InventoryDB) (pet_type_id name : String) :
    PetStoreClient.HttpResponse (Option PetStoreClient.PetView) :=
  match service_get_pet db pet_type_id name with
  | .error _ => ⟨404, none⟩
  | .ok none => ⟨404, none⟩
  | .ok (some p) => ⟨200, some p⟩

end PetStoreService

/-- The composed exact-pet lookup: the order service's client `get_pet`
issuing `GET /pet-types/{id}/pets/{name}` against an inventory backend
whose state is `db`, the request being resolved by the inventory
service's own route and service code. -/
def getPetEndToEnd (db : PetStoreService.InventoryDB)
    (pet_type_id name : String) : Option PetStoreClient.PetView :=
  PetStoreClient.get_pet (PetStoreService.route_get_pet db pet_type_id name)

namespace PetOrder

/-- A client environment in which no inventory has any pet type or pet
and every delete fails (used to instantiate theorems at concrete
inputs). -/
def emptyClient : ClientOracle :=
  ⟨fun _ _ => none, fun _ _ _ => none, fun _ _ => [], fun _ _ _ => false⟩

/-- A client environment in which store 1 resolves every type name to
type id "7" with the single pet "Jamie", store 2 has nothing, and every
delete succeeds. -/
def stockedClient : ClientOracle :=
  ⟨fun s _ => if s == 1 then some "7" else none,
   fun _ _ n => some ⟨n⟩,
   fun _ _ => [⟨"Jamie"⟩],
   fun _ _ _ => true⟩

/-- Like `stockedClient`, but every delete reports failure — the
behaviour seen by a purchaser who loses the claim race. -/
def racingClient : ClientOracle :=
  ⟨fun s _ => if s == 1 then some "7" else none,
   fun _ _ n => some ⟨n⟩,
   fun _ _ => [⟨"Jamie"⟩],
   fun _ _ _ => false⟩

end PetOrder

namespace PetOrder

/-- A candidate produced by one probe carries the store it was probed
from. -/
theorem probe_store_fst_store {c : ClientOracle} {idx : Nat}
    {req : PurchaseRequest} {s : Int} {p : FoundPet}
    (h : (probe_store c idx req s).1 = some p) : p.store = s := by
  unfold probe_store at h
  repeat' split at h
  all_goals (cases h <;> rfl)

/-- Every event emitted by one probe is addressed to the probed store. -/
theorem probe_store_events_store {c : ClientOracle} {idx : Nat}
    {req : PurchaseRequest} {s : Int} :
    ∀ e ∈ (probe_store c idx req s).2, e.store? = some s := by
  intro e he
  unfold probe_store at he
  repeat' split at he
  all_goals simp only [List.mem_cons, List.not_mem_nil, or_false] at he
  all_goals (rcases he with rfl | rfl <;> rfl)

/-- The locator loop yields no candidate exactly when every probed store
yields no candidate. -/
theorem find_loop_none_iff (c : ClientOracle) (idx : Nat)
    (req : PurchaseRequest) :
    ∀ l : List Int, (find_loop c idx req l).1 = none ↔
      ∀ s ∈ l, (probe_store c idx req s).1 = none := by
  intro l
  induction l with
  | nil => simp [find_loop]
  | cons s rest ih =>
    simp only [find_loop]
    rcases hp : (probe_store c idx req s).1 with _ | p
    · simpa [hp] using ih
    · simp [hp]

/-- When the locator loop yields a candidate, the probe list splits into
a prefix of stores that yielded nothing, the store the candidate came
from, and an unvisited suffix; all emitted events are addressed to the
visited stores. -/
theorem find_loop_some_spec (c : ClientOracle) (idx : Nat)
    (req : PurchaseRequest) :
    ∀ (l : List Int) (p : FoundPet) (evs : List Event),
      find_loop c idx req l = (some p, evs) →
      ∃ pre post, l = pre ++ p.store :: post ∧
        (∀ s ∈ pre, (probe_store c idx req s).1 = none) ∧
        (probe_store c idx req p.store).1 = some p ∧
        (∀ e ∈ evs, ∃ s, e.store? = some s ∧ (s ∈ pre ∨ s = p.store)) := by
  intro l
  induction l with
  | nil => intro p evs h; simp [find_loop] at h
  | cons s rest ih =>
    intro p evs h
    simp only [find_loop] at h
    rcases hp : (probe_store c idx req s).1 with _ | q
    · rw [hp] at h
      simp only [Prod.mk.injEq] at h
      obtain ⟨h1, h2⟩ := h
      obtain ⟨pre, post, hl, hpre, hhit, hev⟩ :=
        ih p (find_loop c idx req rest).2 (by rw [← h1])
      refine ⟨s :: pre, post, by simp [hl], ?_, hhit, ?_⟩
      · intro s' hs'
        rcases List.mem_cons.1 hs' with h' | h'
        · subst h'; exact hp
        · exact hpre s' h'
      · intro e he
        rw [← h2] at he
        rcases List.mem_append.1 he with he | he
        · exact ⟨s, probe_store_events_store e he, Or.inl (List.mem_cons_self s pre)⟩
        · obtain ⟨s', hs1, hs2⟩ := hev e he
          refine ⟨s', hs1, ?_⟩
          rcases hs2 with hs2 | hs2
          · exact Or.inl (List.mem_cons_of_mem s hs2)
          · exact Or.inr hs2
    · rw [hp] at h
      simp only [Prod.mk.injEq, Option.some.injEq] at h
      obtain ⟨h1, h2⟩ := h
      subst h1
      have hps : q.store = s := probe_store_fst_store hp
      refine ⟨[], rest, ?_, by simp, ?_, ?_⟩
      · simp [hps]
      · rw [hps]; exact hp
      · intro e he
        rw [← h2] at he
        exact ⟨s, probe_store_events_store e he, Or.inr hps.symm⟩

/-- Every event emitted by the locator is an inventory call (it carries
a store; in particular the locator never touches the ledger). -/
theorem find_loop_events_inventory (c : ClientOracle) (idx : Nat)
    (req : PurchaseRequest) :
    ∀ l : List Int, ∀ e ∈ (find_loop c idx req l).2, (e.store?).isSome := by
  intro l
  induction l with
  | nil => simp [find_loop]
  | cons s rest ih =>
    intro e he
    simp only [find_loop] at he
    rcases hp : (probe_store c idx req s).1 with _ | q
    · rw [hp] at he
      rcases List.mem_append.1 he with he | he
      · rw [probe_store_events_store e he]; rfl
      · exact ih e he
    · rw [hp] at he
      rw [probe_store_events_store e he]; rfl

end PetOrder

namespace PetOrder

/-- Claim C4. Every purchase request that supplies an exact pet name
(a non-empty string — Python truthiness, see C10 for the empty string)
without a target inventory identifier is rejected by the model validator
as malformed input: the endpoint returns the validation error, makes no
inventory call (empty event trace) and writes no ledger record. -/
theorem pet_name_without_store_rejected (c : ClientOracle) (choiceIdx : Nat)
    (contentType purchaser pet_type n : String) (ledger : Ledger)
    (hn : n ≠ "") :
    post_purchases c choiceIdx contentType purchaser pet_type none (some n)
        ledger =
      (.validationError "pet-name can only be provided if store is provided",
       ledger, []) := by
  have h' : n.isEmpty = false := by
    rw [Bool.eq_false_iff]
    intro hie
    exact hn ((String.isEmpty_iff n).mp hie)
  simp [post_purchases, validate_pet_name_requires_store, optStrTruthy,
        optIntTruthy, h']

/-- Witness for C4 at a concrete input. -/
theorem pet_name_without_store_rejected_witness :
    post_purchases emptyClient 0 "application/json" "Ana" "Poodle" none
        (some "Jamie") (Ledger.mk [] 0) =
      (.validationError "pet-name can only be provided if store is provided",
       Ledger.mk [] 0, []) :=
  pet_name_without_store_rejected emptyClient 0 "application/json" "Ana"
    "Poodle" "Jamie" (Ledger.mk [] 0) (by decide)

/-- Claim C8. A ledger query whose transaction-id filter cannot be parsed
as a valid transaction identifier returns the empty sequence, regardless
of the other filters and of the ledger's contents. -/
theorem get_transactions_invalid_id_empty (store : Option Int)
    (pet_type purchaser : Option String) (s : String) (ledger : Ledger)
    (h : parseObjectId s = none) :
    get_transactions store pet_type purchaser (some s) ledger = [] := by
  simp [get_transactions, h]

/-- Witness for C8: an unparsable id against a non-empty ledger. -/
theorem get_transactions_invalid_id_empty_witness :
    get_transactions none none none (some "zzz")
      (Ledger.mk [(0, ⟨"Ana", "Poodle", 1⟩)] 1) = [] :=
  get_transactions_invalid_id_empty none none none "zzz"
    (Ledger.mk [(0, ⟨"Ana", "Poodle", 1⟩)] 1) (by decide)

/-- Claim C9. `GET /transactions` with an absent or wrong `OwnerPC` header
answers 401 and never touches the ledger (empty event trace); with the
matching header it performs exactly one ledger query and answers 200
with the filtered sequence. -/
theorem list_transactions_auth_gate (ownerpc : Option String)
    (store : Option Int) (pet_type purchaser purchase_id : Option String)
    (ledger : Ledger) :
    (ownerpc ≠ some OWNER_PC_SECRET →
      list_transactions ownerpc store pet_type purchaser purchase_id ledger =
        (.unauthorized "unauthorized", [])) ∧
    (ownerpc = some OWNER_PC_SECRET →
      list_transactions ownerpc store pet_type purchaser purchase_id ledger =
        (.ok (get_transactions store pet_type purchaser purchase_id ledger),
         [.ledgerQuery])) := by
  constructor
  · intro h
    simp [list_transactions, bne_iff_ne, h]
  · intro h
    subst h
    simp [list_transactions]

/-- Witness for C9: a request without the header is refused without a
ledger access. -/
theorem list_transactions_auth_gate_witness :
    list_transactions none none none none none
      (Ledger.mk [(0, ⟨"Ana", "Poodle", 1⟩)] 1) =
      (.unauthorized "unauthorized", []) :=
  (list_transactions_auth_gate none none none none none
    (Ledger.mk [(0, ⟨"Ana", "Poodle", 1⟩)] 1)).1 (by decide)

/-- Claim C10 (implicit). A purchase request whose pet-name field is the
empty string, with no store, passes the model validator (the validator
tests truthiness, not presence), and the locator then behaves exactly as
if no pet name had been supplied: it takes the random-selection path
over the full configured store list `[1, 2]`. -/
theorem empty_pet_name_not_rejected (c : ClientOracle) (choiceIdx : Nat)
    (purchaser pet_type : String) :
    validate_pet_name_requires_store ⟨purchaser, pet_type, none, some ""⟩ =
      .ok ⟨purchaser, pet_type, none, some ""⟩ ∧
    storesToCheck ⟨purchaser, pet_type, none, some ""⟩ = [1, 2] ∧
    find_available_pet c choiceIdx ⟨purchaser, pet_type, none, some ""⟩ =
      find_available_pet c choiceIdx ⟨purchaser, pet_type, none, none⟩ := by
  refine ⟨?_, rfl, rfl⟩
  simp [validate_pet_name_requires_store, optStrTruthy, optIntTruthy,
        String.isEmpty_iff]

end PetOrder

namespace PetStoreClient

/-- Claim C5, counterexample. The claim says a transport failure of the
delete call is reported as `false` and never raised; but `delete_pet`
has no exception handler, so a raised transport error propagates
unchanged instead of becoming `.ok false`. -/
theorem delete_pet_transport_error_cex :
    delete_pet (.error "ConnectError") = .error "ConnectError" ∧
      delete_pet (.error "ConnectError") ≠ .ok false := by
  constructor
  · rfl
  · intro h
    simp [delete_pet] at h

/-- Claim C5, amended. `delete_pet` returns success exactly when the
backend answered HTTP 200 or 204, and reports every other HTTP status
(404, 5xx, ...) as failure without raising; a transport-level failure,
however, is not caught and propagates as an exception. -/
theorem delete_pet_status_contract (r : HttpResponse Unit) (e : String) :
    (delete_pet (.ok r) = .ok true ↔ (r.status = 200 ∨ r.status = 204)) ∧
    (delete_pet (.ok r) = .ok false ↔ (r.status ≠ 200 ∧ r.status ≠ 204)) ∧
    delete_pet (.error e) = .error e := by
  refine ⟨?_, ?_, rfl⟩
  · simp [delete_pet, Except.ok.injEq, Bool.or_eq_true, beq_iff_eq]
  · simp [delete_pet, Except.ok.injEq, Bool.or_eq_false_iff,
          beq_eq_false_iff_ne]

/-- Witness for C5's amended contract: a 404 (lost race) yields `false`
without an exception. -/
theorem delete_pet_status_contract_witness :
    delete_pet (.ok ⟨404, ()⟩) = .ok false :=
  (delete_pet_status_contract ⟨404, ()⟩ "x").2.1.mpr (by decide)

end PetStoreClient

namespace PetOrder

/-- Claim C1. If the locator returns a candidate pet but the delete on the
owning inventory reports failure, the purchase endpoint (for a JSON
request) answers 400 with "No pet of this type is available", the ledger
is unchanged, and the call trace is exactly the single locate's calls
followed by the one failed delete — no ledger write and no re-location
of a substitute pet is attempted (all locate events are inventory
calls). -/
theorem claim_delete_failure_fails_purchase (c : ClientOracle)
    (choiceIdx : Nat) (contentType : String) (req : PurchaseRequest)
    (ledger : Ledger) (pet : FoundPet) (evs : List Event)
    (hct : pyInStr "application/json" contentType = true)
    (hfind : find_available_pet c choiceIdx req = (some pet, evs))
    (hdel : c.delete_pet pet.store pet.pet_type_id pet.name = false) :
    create_purchase c choiceIdx contentType req ledger =
      (.badRequest "No pet of this type is available", ledger,
       evs ++ [.deletePet pet.store pet.pet_type_id pet.name]) ∧
    (∀ e ∈ evs, (Event.store? e).isSome = true) := by
  constructor
  · simp [create_purchase, hct, process_purchase, hfind, hdel]
  · intro e he
    apply find_loop_events_inventory c choiceIdx req (storesToCheck req)
    have h2 : (find_loop c choiceIdx req (storesToCheck req)).2 = evs :=
      congrArg Prod.snd hfind
    rw [h2]
    exact he

/-- Witness for C1: a lost claim race at a concrete input. -/
theorem claim_delete_failure_fails_purchase_witness :
    create_purchase racingClient 0 "application/json"
        ⟨"Ana", "Poodle", none, none⟩ (Ledger.mk [] 0) =
      (.badRequest "No pet of this type is available", Ledger.mk [] 0,
       [.findTypeId 1 "Poodle", .listPets 1 "7",
        .deletePet 1 "7" "Jamie"]) :=
  (claim_delete_failure_fails_purchase racingClient 0 "application/json"
    ⟨"Ana", "Poodle", none, none⟩ (Ledger.mk [] 0)
    ⟨1, "7", "Poodle", "Jamie"⟩ [.findTypeId 1 "Poodle", .listPets 1 "7"]
    (by decide) (by decide) (by decide)).1

/-- Claim C2. A purchase that the endpoint answers with 201 appends exactly
one record to the ledger; its purchaser, pet-type name and inventory id
equal those of the response, and the response's purchase-id is the
string form of the id assigned to that record at insertion time. A
purchase that fails with "no pet available" leaves the ledger
unchanged. -/
theorem purchase_success_appends_one_record (c : ClientOracle)
    (choiceIdx : Nat) (contentType : String) (req : PurchaseRequest)
    (ledger : Ledger) :
    (∀ resp l tr,
      create_purchase c choiceIdx contentType req ledger =
          (.created resp, l, tr) →
        l.docs = ledger.docs ++
          [(ledger.nextId, ⟨resp.purchaser, resp.pet_type, resp.store⟩)] ∧
        l.nextId = ledger.nextId + 1 ∧
        resp.purchase_id = toString ledger.nextId ∧
        resp.purchaser = req.purchaser) ∧
    (∀ l tr,
      create_purchase c choiceIdx contentType req ledger =
          (.badRequest "No pet of this type is available", l, tr) →
        l = ledger) := by
  constructor
  · intro resp l tr h
    unfold create_purchase at h
    split at h
    · simp at h
    · simp only [process_purchase] at h
      rcases hf : (find_available_pet c choiceIdx req).1 with _ | pet
      · rw [hf] at h
        simp at h
      · rw [hf] at h
        rcases hdel : c.delete_pet pet.store pet.pet_type_id pet.name
        · simp [hdel] at h
        · simp only [hdel, eq_self_iff_true, if_true, Ledger.insert_one,
            Prod.mk.injEq, HttpPurchaseResult.created.injEq] at h
          obtain ⟨hresp, hl, htr⟩ := h
          subst hresp hl
          simp
  · intro l tr h
    unfold create_purchase at h
    split at h
    · simp at h
    · simp only [process_purchase] at h
      rcases hf : (find_available_pet c choiceIdx req).1 with _ | pet
      · rw [hf] at h
        simp only [Prod.mk.injEq] at h
        exact h.2.1.symm
      · rw [hf] at h
        rcases hdel : c.delete_pet pet.store pet.pet_type_id pet.name
        · simp only [hdel, Bool.false_eq_true, if_false, Prod.mk.injEq] at h
          exact h.2.1.symm
        · simp [hdel] at h

/-- Witness for C2 at a concrete successful purchase. -/
theorem purchase_success_appends_one_record_witness :
    (Ledger.mk [(0, ⟨"Ana", "Poodle", 1⟩)] 1).docs =
      (Ledger.mk [] 0).docs ++ [(0, ⟨"Ana", "Poodle", 1⟩)] :=
  ((purchase_success_appends_one_record stockedClient 0 "application/json"
      ⟨"Ana", "Poodle", none, none⟩ (Ledger.mk [] 0)).1
    ⟨"Ana", "Poodle", 1, "Jamie", "0"⟩ (Ledger.mk [(0, ⟨"Ana", "Poodle", 1⟩)] 1)
    [.findTypeId 1 "Poodle", .listPets 1 "7", .deletePet 1 "7" "Jamie",
     .ledgerInsert]
    (by decide)).1

/-- Claim C3. For a request that passed the model validator, the locator
probes exactly `[target]` when a target store is supplied and `[1, 2]`
(ascending) otherwise; it yields no candidate exactly when every probed
store yields none, and when it yields a candidate, the candidate comes
from the first probed store that yields one, with every inventory call
addressed to that store or an earlier probed one (later inventories are
never consulted). -/
theorem find_available_pet_probe_order (c : ClientOracle) (choiceIdx : Nat)
    (req : PurchaseRequest)
    (hv : validate_pet_name_requires_store req = .ok req) :
    (∀ s, req.store = some s → storesToCheck req = [s]) ∧
    (req.store = none → storesToCheck req = [1, 2]) ∧
    ((find_available_pet c choiceIdx req).1 = none ↔
      ∀ s ∈ storesToCheck req, (probe_store c choiceIdx req s).1 = none) ∧
    (∀ p evs, find_available_pet c choiceIdx req = (some p, evs) →
      ∃ pre post, storesToCheck req = pre ++ p.store :: post ∧
        (∀ s ∈ pre, (probe_store c choiceIdx req s).1 = none) ∧
        (probe_store c choiceIdx req p.store).1 = some p ∧
        (∀ e ∈ evs, ∃ s, e.store? = some s ∧ (s ∈ pre ∨ s = p.store))) := by
  refine ⟨?_, ?_, find_loop_none_iff c choiceIdx req (storesToCheck req),
    fun p evs h => find_loop_some_spec c choiceIdx req (storesToCheck req)
      p evs h⟩
  · intro s hs
    unfold validate_pet_name_requires_store at hv
    split_ifs at hv with h1 h2
    have h12 : s = 1 ∨ s = 2 := by
      rw [hs] at h2
      simp at h2
      tauto
    have hs0 : s ≠ 0 := by rcases h12 with rfl | rfl <;> decide
    simp [storesToCheck, optIntTruthy, hs, hs0]
  · intro hs
    simp [storesToCheck, optIntTruthy, hs]

/-- Witness for C3: with no target store, the probed list is `[1, 2]`. -/
theorem find_available_pet_probe_order_witness :
    storesToCheck ⟨"Ana", "Poodle", none, none⟩ = [1, 2] :=
  (find_available_pet_probe_order emptyClient 0 ⟨"Ana", "Poodle", none, none⟩
    rfl).2.1 rfl

end PetOrder

namespace PetStoreClient

/-- Model of `find_type_in_list` returns nothing exactly when no listed entry
matches the target type name case-insensitively. -/
theorem find_type_in_list_none_iff (target : String) :
    ∀ l : List PetTypeEntry, find_type_in_list target l = none ↔
      ∀ pt ∈ l, PetOrder.lowerStr pt.type ≠ PetOrder.lowerStr target := by
  intro l
  induction l with
  | nil => simp [find_type_in_list]
  | cons pt rest ih =>
    by_cases h : PetOrder.lowerStr pt.type = PetOrder.lowerStr target
    · simp [find_type_in_list, h]
    · simp [find_type_in_list, h, ih]

/-- When `find_type_in_list` returns an id, it is the id of the first
matching entry: the listing splits into a prefix of non-matching
entries, the matching entry, and the rest. -/
theorem find_type_in_list_some_spec (target : String) :
    ∀ (l : List PetTypeEntry) (i : String),
      find_type_in_list target l = some i →
      ∃ pre pt post, l = pre ++ pt :: post ∧ pt.id = i ∧
        PetOrder.lowerStr pt.type = PetOrder.lowerStr target ∧
        ∀ q ∈ pre, PetOrder.lowerStr q.type ≠ PetOrder.lowerStr target := by
  intro l
  induction l with
  | nil => intro i h; simp [find_type_in_list] at h
  | cons pt rest ih =>
    intro i h
    by_cases hm : PetOrder.lowerStr pt.type = PetOrder.lowerStr target
    · refine ⟨[], pt, rest, rfl, ?_, hm, by simp⟩
      simp only [find_type_in_list, hm, beq_self_eq_true, if_true,
        Option.some.injEq] at h
      exact h
    · rw [show find_type_in_list target (pt :: rest) =
            find_type_in_list target rest from by
          simp [find_type_in_list, hm]] at h
      obtain ⟨pre, q, post, hl, hid, hq, hpre⟩ := ih i h
      refine ⟨pt :: pre, q, post, by simp [hl], hid, hq, ?_⟩
      intro q' hq'
      rcases List.mem_cons.1 hq' with rfl | hq'
      · exact hm
      · exact hpre q' hq'

/-- Claim C7. `find_pet_type_id` returns the id of the first listed pet
type whose `type` field equals the requested name case-insensitively,
and returns none exactly when no listed pet type matches — in particular
when the listing is empty (as it is for any non-200 response). -/
theorem find_pet_type_id_first_match (resp : HttpResponse (List PetTypeEntry))
    (name : String) :
    (find_pet_type_id resp name = none ↔
      ∀ pt ∈ get_pet_types resp,
        PetOrder.lowerStr pt.type ≠ PetOrder.lowerStr name) ∧
    (∀ i, find_pet_type_id resp name = some i →
      ∃ pre pt post, get_pet_types resp = pre ++ pt :: post ∧ pt.id = i ∧
        PetOrder.lowerStr pt.type = PetOrder.lowerStr name ∧
        ∀ q ∈ pre, PetOrder.lowerStr q.type ≠ PetOrder.lowerStr name) :=
  ⟨find_type_in_list_none_iff name (get_pet_types resp),
   fun i h => find_type_in_list_some_spec name (get_pet_types resp) i h⟩

/-- Witness for C7: a non-200 listing response yields an empty listing,
hence no id, even though the body mentions a matching type. -/
theorem find_pet_type_id_first_match_witness :
    find_pet_type_id ⟨500, [⟨"7", "Poodle"⟩]⟩ "Poodle" = none :=
  (find_pet_type_id_first_match ⟨500, [⟨"7", "Poodle"⟩]⟩ "Poodle").1.mpr
    (by simp [get_pet_types])

end PetStoreClient

/-- Claim C6, counterexample. The claim says the composed exact-pet lookup
returns a pet only when the requested name matches the stored name
exactly including letter case; but with the inventory service resolving
the route through its case-insensitive lookup, the request "rex" returns
the stored pet "Rex" although the names differ in case. -/
theorem getPet_case_sensitivity_cex :
    getPetEndToEnd ⟨["t1"], [⟨"t1", "Rex", "NA", "pic"⟩]⟩ "t1" "rex" =
      some ⟨"Rex", "NA", "pic"⟩ ∧ ("rex" : String) ≠ "Rex" := by
  constructor
  · rfl
  · decide

/-- Claim C6, amended. The composed lookup (client `get_pet` against the
inventory service's route) is case-insensitive: it returns a pet exactly
when the pet type exists and some stored pet of that type matches the
requested name ignoring ASCII case, and any returned pet's name equals
the requested name up to case; not-found (no such type, or no matching
pet) yields none. -/
theorem getPet_end_to_end_case_insensitive
    (db : PetStoreService.InventoryDB) (tid name : String) :
    (getPetEndToEnd db tid name = none ↔
      ¬(tid ∈ db.pet_type_ids ∧ ∃ p ∈ db.pets, p.pet_type_id = tid ∧
        PetOrder.lowerStr p.name = PetOrder.lowerStr name)) ∧
    (∀ v, getPetEndToEnd db tid name = some v →
      ∃ p ∈ db.pets, p.pet_type_id = tid ∧
        PetOrder.lowerStr p.name = PetOrder.lowerStr name ∧
        v = ⟨p.name, p.birthdate, p.picture⟩) := by
  by_cases hc : tid ∈ db.pet_type_ids
  · rcases hf : PetStoreService.get_pet_case_insensitive db tid name
      with _ | p
    · have hroute : getPetEndToEnd db tid name = none := by
        unfold getPetEndToEnd PetStoreService.route_get_pet
          PetStoreService.service_get_pet
        simp [List.elem_iff, hc, hf, PetStoreClient.get_pet]
      constructor
      · rw [hroute]
        simp only [true_iff]
        rintro ⟨-, p, hp, htid, hname⟩
        unfold PetStoreService.get_pet_case_insensitive at hf
        rw [List.find?_eq_none] at hf
        exact absurd (by simp [htid, hname]) (hf p hp)
      · intro v hv
        rw [hroute] at hv
        cases hv
    · have hp : p ∈ db.pets := List.mem_of_find?_eq_some hf
      have hpred := List.find?_some hf
      simp only [Bool.and_eq_true, beq_iff_eq] at hpred
      have hroute : getPetEndToEnd db tid name =
          some ⟨p.name, p.birthdate, p.picture⟩ := by
        unfold getPetEndToEnd PetStoreService.route_get_pet
          PetStoreService.service_get_pet
        simp [List.elem_iff, hc, hf, PetStoreClient.get_pet]
      constructor
      · rw [hroute]
        simp only [reduceCtorEq, false_iff, not_not]
        exact ⟨hc, p, hp, hpred.1, hpred.2⟩
      · intro v hv
        rw [hroute] at hv
        exact ⟨p, hp, hpred.1, hpred.2, (Option.some.inj hv).symm⟩
  · have hroute : getPetEndToEnd db tid name = none := by
      unfold getPetEndToEnd PetStoreService.route_get_pet
        PetStoreService.service_get_pet
      simp [List.elem_iff, hc, PetStoreClient.get_pet]
    constructor
    · rw [hroute]
      simp only [true_iff]
      rintro ⟨hmem, -⟩
      exact hc hmem
    · intro v hv
      rw [hroute] at hv
      cases hv

/-- Witness for C6's amended statement: the concrete case-insensitive
hit, obtained through the theorem. -/
theorem getPet_end_to_end_case_insensitive_witness :
    ∃ p ∈ (⟨["t1"], [⟨"t1", "Rex", "NA", "pic"⟩]⟩ :
        PetStoreService.InventoryDB).pets,
      p.pet_type_id = "t1" ∧
      PetOrder.lowerStr p.name = PetOrder.lowerStr "rex" ∧
      (⟨"Rex", "NA", "pic"⟩ : PetStoreClient.PetView) =
        ⟨p.name, p.birthdate, p.picture⟩ :=
  (getPet_end_to_end_case_insensitive
      ⟨["t1"], [⟨"t1", "Rex", "NA", "pic"⟩]⟩ "t1" "rex").2
    ⟨"Rex", "NA", "pic"⟩ (by rfl)
